import Mathlib

/-!
Shallow embedding of the layer-7 load balancer of this repository
(`src/lb/src/loadbalancer.ts`, `src/lb/src/lb-algos/rr.ts`, the random
policy, and the policy factory), together with proofs of the frozen
claims about it.

Conventions of the embedding:
* A backend server descriptor is reduced to the fields the claims touch
  (`url`, `weight`).
* JavaScript's `%` operator on integers is truncated remainder, which is
  `Int.tmod` in Lean; the embedding uses `Int.tmod` wherever the source
  writes `%` on a possibly-signed value.
* A JavaScript array access `a[i]` is modelled with `List.getD` (a
  default element stands for the `undefined` an out-of-range access
  would yield); the theorems show the accesses are in range under the
  reachable-state invariants.
* A thrown exception is modelled with `Except.error`.
-/

/-- A backend server descriptor, reduced to the fields the selection
policies and the forwarder read (`backendServerDetails.ts` holds more
bookkeeping, none of it consulted by the code under study). -/
structure Backend where
  url : String
  weight : Nat
deriving DecidableEq, Repr, Inhabited

/-- State owned by `RoundRobinLB` (`src/lb/src/lb-algos/rr.ts`):
the healthy-server view shared with the health checker and the
integer cursor `curBEServerIdx`. -/
structure RRState where
  healthyServers : List Backend
  curBEServerIdx : Int
deriving DecidableEq, Repr

/-- The initial round-robin state: `loadbalancer.ts` constructs the
algorithm with `curBEServerIdx: -1` and the constructor of
`RoundRobinLB` keeps it (`params.curBEServerIdx ?? -1`). -/
def RRState.init (healthy : List Backend) : RRState :=
  { healthyServers := healthy, curBEServerIdx := -1 }

/-- Embedding of `RoundRobinLB.nextServer` (`src/lb/src/lb-algos/rr.ts`,
lines 17-29): throw when the healthy set is empty; otherwise
`curBEServerIdx = (curBEServerIdx + 1) % healthyServers.length` and
return `healthyServers[curBEServerIdx % healthyServers.length]`
together with the new cursor value. -/
def RoundRobinLB.nextServer (s : RRState) : Except String (Backend × Int × RRState) :=
  if s.healthyServers.length = 0 then
    .error "[ERROR] No Healthy Servers Found!!"
  else
    let len : Int := s.healthyServers.length
    let idx : Int := (s.curBEServerIdx + 1).tmod len
    let server : Backend := s.healthyServers.getD (idx.tmod len).toNat default
    .ok (server, idx, { s with curBEServerIdx := idx })

/-- State owned by `RandomLB` (the random-policy source file): the same
shape as the round-robin state (the class stores a cursor too). -/
structure RandomState where
  healthyServers : List Backend
  curBEServerIdx : Int
deriving DecidableEq, Repr

/-- Embedding of `RandomLB.nextServer`: throw when the healthy set is
empty; otherwise draw
`randomInRange = parseInt((Math.random() * len).toString())`,
set `curBEServerIdx = randomInRange % len` and return
`healthyServers[curBEServerIdx % len]` with the cursor.
`Math.random()` is nondeterministic, so the integer the draw produced
(`randomInRange`, a nonnegative integer) is a parameter. -/
def RandomLB.nextServer (randomInRange : Nat) (s : RandomState) :
    Except String (Backend × Int × RandomState) :=
  if s.healthyServers.length = 0 then
    .error "[ERROR] No Healthy Servers Found!!"
  else
    let len : Int := s.healthyServers.length
    let idx : Int := (randomInRange : Int).tmod len
    let server : Backend := s.healthyServers.getD (idx.tmod len).toNat default
    .ok (server, idx, { s with curBEServerIdx := idx })

/-- State of the weighted round-robin policy: healthy view, cursor, and
the per-round consumption counter. -/
structure WRRState where
  healthyServers : List Backend
  curBEServerIdx : Int
  consumed : Nat
deriving DecidableEq, Repr

/-- Modelled from the spec: `wrr.ts` is not among the sources (only the
factory imports `WeightedRoundRobinLB`).  Per the spec the policy keeps a
cursor plus a per-round consumption counter and, like the other two
variants, reports the distinguished "no healthy server" failure on an
empty healthy set; on a non-empty set it serves the backend under the
cursor until its weight is consumed, then advances. -/
def WeightedRoundRobinLB.nextServer (s : WRRState) : Except String (Backend × Int × WRRState) :=
  if s.healthyServers.length = 0 then
    .error "[ERROR] No Healthy Servers Found!!"
  else
    let len : Int := s.healthyServers.length
    let cur : Int := s.curBEServerIdx % len
    let server : Backend := s.healthyServers.getD cur.toNat default
    if s.consumed + 1 < server.weight then
      .ok (server, cur, { s with curBEServerIdx := cur, consumed := s.consumed + 1 })
    else
      .ok (server, cur, { s with curBEServerIdx := (cur + 1) % len, consumed := 0 })

/-- Outcome of one forward attempt as the HTTP client reports it to the
handler: either a resolved response (status, body) or a thrown error
carrying its `error.code` and whether the retry predicate accepts it. -/
inductive UpstreamResult where
  | ok (status : Nat) (body : String)
  | err (code : String) (retryable : Bool)
deriving DecidableEq, Repr

/-- The parts of the client's request the spec says are forwarded:
query string, headers, body. -/
structure ClientRequest where
  query : List (String × String)
  headers : List (String × String)
  body : Option String
deriving DecidableEq, Repr

/-- A request the forwarder sends upstream. -/
structure UpstreamRequest where
  url : String
  query : List (String × String)
  headers : List (String × String)
  body : Option String
deriving DecidableEq, Repr

/-- The upstream request built by the handler
(`loadbalancer.ts` line 120): `BEHttpClient.get(backendServer.url, {...})`
where the config object holds only the retry options — the target URL
alone, no query parameters, no headers, no body taken from the client
request (`req` is never read in the handler). -/
def mkUpstreamRequest (b : Backend) : UpstreamRequest :=
  { url := b.url, query := [], headers := [], body := none }

/-- Record of one forward attempt: the backend targeted, the request
sent to it, the outcome, and whether the `onRetry` callback asked the
health checker to probe this backend afterwards. -/
structure Attempt where
  target : Backend
  request : UpstreamRequest
  result : UpstreamResult
  probedAfter : Bool
deriving DecidableEq, Repr

def mkAttempt (b : Backend) (res : UpstreamResult) (probed : Bool) : Attempt :=
  { target := b, request := mkUpstreamRequest b, result := res, probedAfter := probed }

/-- Everything the handler of one client request observes: the response
it sent (status and body; `none` stands for the framework-supplied
status text of `res.sendStatus(500)`), the forward attempts it made,
how many times it consulted `getBackendServer`, and which backend had
`incrementRequestsServedCount` called on it. -/
structure HandlerLog where
  clientStatus : Nat
  clientBody : Option String
  attempts : List Attempt
  selectionCalls : Nat
  served : Option Backend
deriving DecidableEq, Repr

/-- The environment one request runs in.  The healthy set and the
selection policy mutate concurrently with the request, so the embedding
abstracts them into oracles: `select k` is what the `k`-th
`getBackendServer()` call of this request yields (a backend, or the
thrown "no healthy server" error), and `outcome k` is the result of the
`k`-th forward attempt. -/
structure Env where
  healthyAtEntry : List Backend
  select : Nat → Except String Backend
  outcome : Nat → UpstreamResult

/-- Modelled from the spec: `utils/http-client.ts` (the `BEHttpClient`
axios instance with `axios-retry`) is not among the sources.  Per the
spec the client makes 1 initial attempt plus up to `retriesLeft`
retries; before each retry it runs the caller's `onRetry` callback; a
non-retryable error or an error thrown by the callback aborts and
propagates.  The `onRetry` body is taken verbatim from
`loadbalancer.ts` lines 124-142: probe the current target iff
`error.code === "ECONNREFUSED"`, then `getBackendServer()` again and
retarget the request to the new backend's URL.
Arguments: remaining retries, absolute attempt number `k`, number of
selection calls made so far, current target. -/
def retryLoop (env : Env) : Nat → Nat → Nat → Backend → HandlerLog
  | 0, k, sels, b =>
    match env.outcome k with
    | .ok _st body =>
      { clientStatus := 200, clientBody := some body,
        attempts := [mkAttempt b (.ok _st body) false],
        selectionCalls := sels, served := some b }
    | .err code retryable =>
      { clientStatus := 500, clientBody := none,
        attempts := [mkAttempt b (.err code retryable) false],
        selectionCalls := sels, served := none }
  | r + 1, k, sels, b =>
    match env.outcome k with
    | .ok _st body =>
      { clientStatus := 200, clientBody := some body,
        attempts := [mkAttempt b (.ok _st body) false],
        selectionCalls := sels, served := some b }
    | .err code retryable =>
      if retryable then
        let att := mkAttempt b (.err code retryable) (code = "ECONNREFUSED")
        match env.select sels with
        | .error _ =>
          { clientStatus := 500, clientBody := none,
            attempts := [att], selectionCalls := sels + 1, served := none }
        | .ok b2 =>
          let rest := retryLoop env r (k + 1) (sels + 1) b2
          { rest with attempts := att :: rest.attempts }
      else
        { clientStatus := 500, clientBody := none,
          attempts := [mkAttempt b (.err code retryable) false],
          selectionCalls := sels, served := none }

/-- The `app.get("/", ...)` handler (`loadbalancer.ts` lines 109-157):
empty healthy set at entry → `res.sendStatus(500)` with no selection
and no forwarding; otherwise select an initial backend and dispatch
through the retrying HTTP client; any throw is caught and answered
with `res.sendStatus(500)`; success is answered with
`res.status(200).send(response.data)` after incrementing the serving
backend's counter.  The client request is an argument because the
claims speak about it; the source handler never reads `req`. -/
def handleRequest (beRetries : Nat) (env : Env) (_req : ClientRequest) : HandlerLog :=
  if env.healthyAtEntry.length = 0 then
    { clientStatus := 500, clientBody := none,
      attempts := [], selectionCalls := 0, served := none }
  else
    match env.select 0 with
    | .error _ =>
      { clientStatus := 500, clientBody := none,
        attempts := [], selectionCalls := 1, served := none }
    | .ok b => retryLoop env beRetries 0 1 b

/-- The route table of the Express app (`createExpressApp`): the only
route registered is `GET /`; `express.text()` and `express.json()` are
body-parsing middleware and register no route. -/
def appRoutes : List (String × String) := [("GET", "/")]

/-- Dispatch of one incoming request by the Express app.  Modelled from
the framework contract: a request matching a registered route runs its
handler, and a HEAD request is routed through a GET-only route's handler
as well (Express's route matching falls back from `head` to `get`; the
HTTP layer then suppresses the response body on the wire, but the
handler — selection, forward, counters — runs in full).  An OPTIONS
request on a routed path gets Express's default 200 response listing the
allowed methods (`Allow: GET,HEAD`, body `GET,HEAD`) with no handler
code run.  Any other request gets Express's default not-found response
(status 404), which involves no handler code. -/
def appDispatch (beRetries : Nat) (env : Env) (method path : String)
    (req : ClientRequest) : HandlerLog :=
  if path = "/" ∧ (method = "GET" ∨ method = "HEAD") then
    handleRequest beRetries env req
  else if path = "/" ∧ method = "OPTIONS" then
    { clientStatus := 200, clientBody := some "GET,HEAD",
      attempts := [], selectionCalls := 0, served := none }
  else
    { clientStatus := 404, clientBody := none,
      attempts := [], selectionCalls := 0, served := none }

/-- Whether an attempt's outcome is a retryable error whose `error.code`
indicates connection refusal — the exact condition under which the
`onRetry` callback of `loadbalancer.ts` runs its
`this.hc.performHealthCheck(backendServer)` branch. -/
def isRetryableRefusal : UpstreamResult → Bool
  | .err code retryable => retryable && decide (code = "ECONNREFUSED")
  | .ok _ _ => false

/-- The sequence of (backend, returned index) results of a fixed number
of consecutive `RoundRobinLB.nextServer` calls starting from a state —
the "window of consecutive selections" of the fairness property.  Each
call feeds its successor state to the next; on a non-empty healthy set
the call never fails, and a failure stops the trace. -/
def rrTrace : RRState → Nat → List (Backend × Int)
  | _, 0 => []
  | s, m + 1 =>
    match RoundRobinLB.nextServer s with
    | .error _ => []
    | .ok (b, i, s2) => (b, i) :: rrTrace s2 m

/-- A concrete backend for witnesses. -/
def srvA : Backend := { url := "http://localhost:8081", weight := 1 }

/-- A second concrete backend for witnesses. -/
def srvB : Backend := { url := "http://localhost:8082", weight := 1 }

/-- A third concrete backend for witnesses. -/
def srvC : Backend := { url := "http://localhost:8083", weight := 1 }

/-- A concrete environment: one healthy backend, selection always yields
it, every attempt resolves with upstream status 201 and body "created". -/
def envCreated : Env :=
  { healthyAtEntry := [srvA], select := fun _ => .ok srvA,
    outcome := fun _ => .ok 201 "created" }

/-- A concrete environment with an empty healthy set at entry. -/
def envNoHealthy : Env :=
  { healthyAtEntry := [], select := fun _ => .error "[ERROR] No Healthy Servers Found!!",
    outcome := fun _ => .ok 200 "ok" }

/-- A concrete environment whose first attempt is refused and whose
retry (re-targeted to the second backend) succeeds. -/
def envRefusedThenOk : Env :=
  { healthyAtEntry := [srvA, srvB],
    select := fun k => if k = 0 then .ok srvA else .ok srvB,
    outcome := fun k => if k = 0 then .err "ECONNREFUSED" true else .ok 200 "hello" }

/-- A concrete client request carrying a query string, a header, and a
body. -/
def reqFull : ClientRequest :=
  { query := [("q", "1")], headers := [("x-custom", "v")], body := some "B" }

/-- The empty client request. -/
def reqEmpty : ClientRequest := { query := [], headers := [], body := none }

lemma emod_nonneg_lt {a n : Int} (hn : 0 < n) : 0 ≤ a % n ∧ a % n < n :=
  ⟨Int.emod_nonneg a (by omega), Int.emod_lt_of_pos a hn⟩

lemma length_pos_of_ne_nil {l : List Backend} (h : l ≠ []) : 0 < (l.length : Int) := by
  have := List.length_pos.mpr h
  exact_mod_cast this

/-- Closed form of `RoundRobinLB.nextServer` on a non-empty healthy set
under the reachable-cursor invariant `-1 ≤ curBEServerIdx`. -/
lemma rr_nextServer_eq (s : RRState) (hne : s.healthyServers ≠ [])
    (hc : -1 ≤ s.curBEServerIdx) :
    RoundRobinLB.nextServer s =
      .ok (s.healthyServers.getD
             ((s.curBEServerIdx + 1) % (s.healthyServers.length : Int)).toNat default,
           (s.curBEServerIdx + 1) % (s.healthyServers.length : Int),
           { s with curBEServerIdx :=
               (s.curBEServerIdx + 1) % (s.healthyServers.length : Int) }) := by
  have hlen : 0 < (s.healthyServers.length : Int) := length_pos_of_ne_nil hne
  have hlen0 : s.healthyServers.length ≠ 0 := by
    intro h0
    exact hne (List.length_eq_zero.mp h0)
  have h1 : (0 : Int) ≤ s.curBEServerIdx + 1 := by omega
  have htm : (s.curBEServerIdx + 1).tmod (s.healthyServers.length : Int) =
      (s.curBEServerIdx + 1) % (s.healthyServers.length : Int) :=
    Int.tmod_eq_emod h1 (by omega)
  have hb := emod_nonneg_lt (a := s.curBEServerIdx + 1) hlen
  have htm2 : ((s.curBEServerIdx + 1) % (s.healthyServers.length : Int)).tmod
      (s.healthyServers.length : Int) =
      (s.curBEServerIdx + 1) % (s.healthyServers.length : Int) := by
    rw [Int.tmod_eq_emod hb.1 (by omega)]
    exact Int.emod_emod_of_dvd _ dvd_rfl
  simp only [RoundRobinLB.nextServer, hlen0, if_false, htm, htm2]

lemma rr_index_toNat_lt (s : RRState) (hne : s.healthyServers ≠ [])
    (_hc : -1 ≤ s.curBEServerIdx) :
    ((s.curBEServerIdx + 1) % (s.healthyServers.length : Int)).toNat <
      s.healthyServers.length := by
  have hlen : 0 < (s.healthyServers.length : Int) := length_pos_of_ne_nil hne
  have hb := emod_nonneg_lt (a := s.curBEServerIdx + 1) hlen
  exact (Int.toNat_lt hb.1).mpr hb.2

/-- C3: the round-robin policy initializes its cursor to −1, and every
`nextServer` call on a non-empty healthy set (with the cursor in its
reachable range, i.e. at least −1) sets the cursor to
`(cursor + 1) mod |H|` and returns the backend of the healthy set at
that index, together with that index. -/
theorem rr_cursor_spec :
    (∀ healthy : List Backend, (RRState.init healthy).curBEServerIdx = -1) ∧
    ∀ s : RRState, s.healthyServers ≠ [] → -1 ≤ s.curBEServerIdx →
      ∃ b s2, RoundRobinLB.nextServer s = .ok (b, s2.curBEServerIdx, s2) ∧
        s2.curBEServerIdx = (s.curBEServerIdx + 1) % (s.healthyServers.length : Int) ∧
        s2.healthyServers = s.healthyServers ∧
        ∃ h : s2.curBEServerIdx.toNat < s.healthyServers.length,
          b = s.healthyServers.get ⟨s2.curBEServerIdx.toNat, h⟩ := by
  refine ⟨fun healthy => rfl, fun s hne hc => ?_⟩
  have hlt := rr_index_toNat_lt s hne hc
  refine ⟨_,
    { s with curBEServerIdx := (s.curBEServerIdx + 1) % (s.healthyServers.length : Int) },
    rr_nextServer_eq s hne hc, rfl, rfl, hlt, ?_⟩
  rw [List.getD_eq_getElem _ _ hlt]
  rfl

/-- Witness for C3 at a concrete state: three healthy backends, cursor 1. -/
theorem rr_cursor_spec_witness :
    ∃ b s2,
      RoundRobinLB.nextServer
        { healthyServers := [⟨"http://b1", 1⟩, ⟨"http://b2", 1⟩, ⟨"http://b3", 1⟩],
          curBEServerIdx := 1 } = .ok (b, s2.curBEServerIdx, s2) ∧
      s2.curBEServerIdx = (1 + 1) % ((3 : Nat) : Int) ∧
      s2.healthyServers = [⟨"http://b1", 1⟩, ⟨"http://b2", 1⟩, ⟨"http://b3", 1⟩] ∧
      ∃ h : s2.curBEServerIdx.toNat < (3 : Nat),
        b = List.get [⟨"http://b1", 1⟩, ⟨"http://b2", 1⟩, ⟨"http://b3", 1⟩]
              ⟨s2.curBEServerIdx.toNat, h⟩ := by
  have := rr_cursor_spec.2
    { healthyServers := [⟨"http://b1", 1⟩, ⟨"http://b2", 1⟩, ⟨"http://b3", 1⟩],
      curBEServerIdx := 1 } (by decide) (by decide)
  simpa using this

lemma getD_mem_of_lt {l : List Backend} {n : Nat} (h : n < l.length) (d : Backend) :
    l.getD n d ∈ l := by
  rw [List.getD_eq_getElem l d h]
  exact List.getElem_mem h

/-- C8: every selection-policy variant — round-robin and random from the
source, weighted round-robin modelled from the spec (`wrr.ts` is not
among the sources) — reports the distinguished "no healthy server"
failure when invoked with an empty healthy set, rather than returning a
backend. -/
theorem nextServer_empty_fails :
    (∀ s : RRState, s.healthyServers = [] →
      RoundRobinLB.nextServer s = .error "[ERROR] No Healthy Servers Found!!") ∧
    (∀ (randomInRange : Nat) (s : RandomState), s.healthyServers = [] →
      RandomLB.nextServer randomInRange s = .error "[ERROR] No Healthy Servers Found!!") ∧
    (∀ s : WRRState, s.healthyServers = [] →
      WeightedRoundRobinLB.nextServer s = .error "[ERROR] No Healthy Servers Found!!") := by
  refine ⟨fun s h => ?_, fun r s h => ?_, fun s h => ?_⟩ <;>
    simp [RoundRobinLB.nextServer, RandomLB.nextServer, WeightedRoundRobinLB.nextServer, h]

/-- Witness for C8: the three variants at concrete empty states. -/
theorem nextServer_empty_fails_witness :
    RoundRobinLB.nextServer { healthyServers := [], curBEServerIdx := -1 } =
      .error "[ERROR] No Healthy Servers Found!!" ∧
    RandomLB.nextServer 7 { healthyServers := [], curBEServerIdx := -1 } =
      .error "[ERROR] No Healthy Servers Found!!" ∧
    WeightedRoundRobinLB.nextServer
        { healthyServers := [], curBEServerIdx := -1, consumed := 0 } =
      .error "[ERROR] No Healthy Servers Found!!" :=
  ⟨nextServer_empty_fails.1 _ rfl, nextServer_empty_fails.2.1 7 _ rfl,
   nextServer_empty_fails.2.2 _ rfl⟩

/-- C7: every `nextServer` call of every policy on a non-empty healthy
set returns a backend that is a member of the healthy set at the moment
of selection, and the returned index interpreted modulo the current
healthy-set length lies in `[0, |H|)` — for round-robin even when the
stored cursor is stale from a previously larger healthy set (any cursor
value ≥ −1, the reachable range), and for random for every value of the
draw. -/
theorem nextServer_member_of_healthy :
    (∀ s : RRState, s.healthyServers ≠ [] → -1 ≤ s.curBEServerIdx →
      ∃ b i s2, RoundRobinLB.nextServer s = .ok (b, i, s2) ∧
        0 ≤ i.tmod (s.healthyServers.length : Int) ∧
        i.tmod (s.healthyServers.length : Int) < (s.healthyServers.length : Int) ∧
        b ∈ s.healthyServers) ∧
    (∀ (randomInRange : Nat) (s : RandomState), s.healthyServers ≠ [] →
      ∃ b i s2, RandomLB.nextServer randomInRange s = .ok (b, i, s2) ∧
        0 ≤ i.tmod (s.healthyServers.length : Int) ∧
        i.tmod (s.healthyServers.length : Int) < (s.healthyServers.length : Int) ∧
        b ∈ s.healthyServers) ∧
    (∀ s : WRRState, s.healthyServers ≠ [] →
      ∃ b i s2, WeightedRoundRobinLB.nextServer s = .ok (b, i, s2) ∧
        0 ≤ i.tmod (s.healthyServers.length : Int) ∧
        i.tmod (s.healthyServers.length : Int) < (s.healthyServers.length : Int) ∧
        b ∈ s.healthyServers) := by
  refine ⟨fun s hne hc => ?_, fun randomInRange s hne => ?_, fun s hne => ?_⟩
  · have hlen : 0 < (s.healthyServers.length : Int) := length_pos_of_ne_nil hne
    have hb := emod_nonneg_lt (a := s.curBEServerIdx + 1) hlen
    have htm : ((s.curBEServerIdx + 1) % (s.healthyServers.length : Int)).tmod
        (s.healthyServers.length : Int) =
        (s.curBEServerIdx + 1) % (s.healthyServers.length : Int) :=
      Int.tmod_eq_of_lt hb.1 hb.2
    refine ⟨_, _, _, rr_nextServer_eq s hne hc, ?_, ?_, ?_⟩
    · rw [htm]; exact hb.1
    · rw [htm]; exact hb.2
    · exact getD_mem_of_lt (rr_index_toNat_lt s hne hc) default
  · have hlen : 0 < (s.healthyServers.length : Int) := length_pos_of_ne_nil hne
    have hlen0 : s.healthyServers.length ≠ 0 := by
      intro h0
      exact hne (List.length_eq_zero.mp h0)
    have h0 : (0 : Int) ≤ (randomInRange : Int) := Int.ofNat_nonneg _
    have hnn : 0 ≤ (randomInRange : Int).tmod (s.healthyServers.length : Int) :=
      Int.tmod_nonneg _ h0
    have hlt : (randomInRange : Int).tmod (s.healthyServers.length : Int) <
        (s.healthyServers.length : Int) := Int.tmod_lt_of_pos _ hlen
    have htm : ((randomInRange : Int).tmod (s.healthyServers.length : Int)).tmod
        (s.healthyServers.length : Int) =
        (randomInRange : Int).tmod (s.healthyServers.length : Int) :=
      Int.tmod_eq_of_lt hnn hlt
    have hidx : ((randomInRange : Int).tmod (s.healthyServers.length : Int)).toNat <
        s.healthyServers.length := (Int.toNat_lt hnn).mpr hlt
    refine ⟨s.healthyServers.getD
        (((randomInRange : Int).tmod (s.healthyServers.length : Int)).tmod
          (s.healthyServers.length : Int)).toNat default,
      (randomInRange : Int).tmod (s.healthyServers.length : Int),
      { s with curBEServerIdx := (randomInRange : Int).tmod (s.healthyServers.length : Int) },
      ?_, ?_, ?_, ?_⟩
    · simp only [RandomLB.nextServer, hlen0, if_false]
    · rw [htm]; exact hnn
    · rw [htm]; exact hlt
    · rw [htm]; exact getD_mem_of_lt hidx default
  · have hlen : 0 < (s.healthyServers.length : Int) := length_pos_of_ne_nil hne
    have hlen0 : s.healthyServers.length ≠ 0 := by
      intro h0
      exact hne (List.length_eq_zero.mp h0)
    have hb := emod_nonneg_lt (a := s.curBEServerIdx) hlen
    have htm : (s.curBEServerIdx % (s.healthyServers.length : Int)).tmod
        (s.healthyServers.length : Int) =
        s.curBEServerIdx % (s.healthyServers.length : Int) :=
      Int.tmod_eq_of_lt hb.1 hb.2
    have hidx : (s.curBEServerIdx % (s.healthyServers.length : Int)).toNat <
        s.healthyServers.length := (Int.toNat_lt hb.1).mpr hb.2
    have hmem := getD_mem_of_lt hidx (default : Backend)
    by_cases hw : s.consumed + 1 <
        (s.healthyServers.getD (s.curBEServerIdx % (s.healthyServers.length : Int)).toNat
          default).weight
    · refine ⟨s.healthyServers.getD (s.curBEServerIdx % (s.healthyServers.length : Int)).toNat default, s.curBEServerIdx % (s.healthyServers.length : Int), { s with curBEServerIdx := s.curBEServerIdx % (s.healthyServers.length : Int), consumed := s.consumed + 1 }, ?_, ?_, ?_, ?_⟩
      · simp only [WeightedRoundRobinLB.nextServer, hlen0, if_false, hw, if_true]
      · rw [htm]; exact hb.1
      · rw [htm]; exact hb.2
      · exact hmem
    · refine ⟨s.healthyServers.getD (s.curBEServerIdx % (s.healthyServers.length : Int)).toNat default, s.curBEServerIdx % (s.healthyServers.length : Int), { s with curBEServerIdx := (s.curBEServerIdx % (s.healthyServers.length : Int) + 1) % (s.healthyServers.length : Int), consumed := 0 }, ?_, ?_, ?_, ?_⟩
      · simp only [WeightedRoundRobinLB.nextServer, hlen0, if_false, hw, if_false]
      · rw [htm]; exact hb.1
      · rw [htm]; exact hb.2
      · exact hmem

/-- Witness for C7: all three variants at concrete states — round-robin
with a stale cursor (5) left over from a larger healthy set of which two
backends remain, random with an arbitrary draw (12), weighted
round-robin mid-round. -/
theorem nextServer_member_of_healthy_witness :
    (∃ b i s2, RoundRobinLB.nextServer
        { healthyServers := [⟨"http://b1", 1⟩, ⟨"http://b2", 1⟩], curBEServerIdx := 5 } =
          .ok (b, i, s2) ∧
      0 ≤ i.tmod ((2 : Nat) : Int) ∧ i.tmod ((2 : Nat) : Int) < ((2 : Nat) : Int) ∧
      b ∈ [Backend.mk "http://b1" 1, Backend.mk "http://b2" 1]) ∧
    (∃ b i s2, RandomLB.nextServer 12
        { healthyServers := [⟨"http://b1", 1⟩, ⟨"http://b2", 1⟩], curBEServerIdx := -1 } =
          .ok (b, i, s2) ∧
      0 ≤ i.tmod ((2 : Nat) : Int) ∧ i.tmod ((2 : Nat) : Int) < ((2 : Nat) : Int) ∧
      b ∈ [Backend.mk "http://b1" 1, Backend.mk "http://b2" 1]) ∧
    (∃ b i s2, WeightedRoundRobinLB.nextServer
        { healthyServers := [⟨"http://b1", 2⟩, ⟨"http://b2", 1⟩], curBEServerIdx := 0,
          consumed := 0 } = .ok (b, i, s2) ∧
      0 ≤ i.tmod ((2 : Nat) : Int) ∧ i.tmod ((2 : Nat) : Int) < ((2 : Nat) : Int) ∧
      b ∈ [Backend.mk "http://b1" 2, Backend.mk "http://b2" 1]) := by
  refine ⟨?_, ?_, ?_⟩
  · exact nextServer_member_of_healthy.1
      { healthyServers := [⟨"http://b1", 1⟩, ⟨"http://b2", 1⟩], curBEServerIdx := 5 }
      (by decide) (by decide)
  · exact nextServer_member_of_healthy.2.1 12
      { healthyServers := [⟨"http://b1", 1⟩, ⟨"http://b2", 1⟩], curBEServerIdx := -1 }
      (by decide)
  · exact nextServer_member_of_healthy.2.2
      { healthyServers := [⟨"http://b1", 2⟩, ⟨"http://b2", 1⟩], curBEServerIdx := 0,
        consumed := 0 } (by decide)

lemma retryLoop_attempts_length_le (env : Env) :
    ∀ (r k sels : Nat) (b : Backend),
      (retryLoop env r k sels b).attempts.length ≤ r + 1 := by
  intro r
  induction r with
  | zero =>
    intro k sels b
    cases henv : env.outcome k <;> simp [retryLoop, henv]
  | succ r ih =>
    intro k sels b
    cases henv : env.outcome k with
    | ok st body => simp [retryLoop, henv]
    | err code retryable =>
      by_cases hr : retryable
      · cases hsel : env.select sels with
        | error e => simp [retryLoop, henv, hr, hsel]
        | ok b2 =>
          have := ih (k + 1) (sels + 1) b2
          simp only [retryLoop, henv, hr, if_true, hsel, List.length_cons]
          omega
      · simp [retryLoop, henv, hr]

/-- C4: no client request causes more than `1 + N` forward attempts,
where `N` is the configured retry budget (`CONFIG.be_retries`). -/
theorem retry_budget_bound (beRetries : Nat) (env : Env) (req : ClientRequest) :
    (handleRequest beRetries env req).attempts.length ≤ 1 + beRetries := by
  unfold handleRequest
  by_cases h : env.healthyAtEntry.length = 0
  · simp [h]
  · cases hsel : env.select 0 with
    | error e => simp [h, hsel]
    | ok b =>
      have := retryLoop_attempts_length_le env beRetries 0 1 b
      simp only [h, if_false, hsel]
      omega

/-- C2: if the healthy set is empty at request entry, the handler
answers 500 immediately, makes no selection-policy call and no forward
attempt to any backend. -/
theorem empty_healthy_entry_500 (beRetries : Nat) (env : Env) (req : ClientRequest)
    (h : env.healthyAtEntry = []) :
    (handleRequest beRetries env req).clientStatus = 500 ∧
    (handleRequest beRetries env req).attempts = [] ∧
    (handleRequest beRetries env req).selectionCalls = 0 := by
  simp [handleRequest, h]

/-- Witness for C2: the concrete no-healthy environment. -/
theorem empty_healthy_entry_500_witness :
    (handleRequest 3 envNoHealthy reqEmpty).clientStatus = 500 ∧
    (handleRequest 3 envNoHealthy reqEmpty).attempts = [] ∧
    (handleRequest 3 envNoHealthy reqEmpty).selectionCalls = 0 :=
  empty_healthy_entry_500 3 envNoHealthy reqEmpty rfl

/-- C10 (counterexample): a HEAD request to `/` is routed by Express to
the GET handler — its route matching falls back from `head` to `get` —
so a backend selection and an upstream forward do occur and the
response is not the default not-found, refuting the claim that every
request whose method is not GET gets the framework default with no
selection and no forward. -/
theorem head_request_runs_handler :
    (appDispatch 3 envCreated "HEAD" "/" reqEmpty).attempts =
      [mkAttempt srvA (.ok 201 "created") false] ∧
    (appDispatch 3 envCreated "HEAD" "/" reqEmpty).selectionCalls = 1 ∧
    (appDispatch 3 envCreated "HEAD" "/" reqEmpty).clientStatus ≠ 404 ∧
    "HEAD" ≠ "GET" :=
  ⟨rfl, rfl, by decide, by decide⟩

/-- C10 (amended): the Express app registers a handler only for `GET /`
(`appRoutes`); a request whose path is not `/` or whose method is none
of GET, HEAD and OPTIONS is answered by the framework's default
not-found response (404, not a synthesized 500) with no backend
selection and no forward attempt; a `HEAD /` request is routed by the
framework through the GET handler (selection and forwarding occur); an
`OPTIONS /` request gets the framework's default 200 `Allow` response
with no selection and no forward. -/
theorem app_routing_spec :
    (∀ (beRetries : Nat) (env : Env) (method path : String) (req : ClientRequest),
      ¬(path = "/" ∧ (method = "GET" ∨ method = "HEAD" ∨ method = "OPTIONS")) →
      appDispatch beRetries env method path req =
        { clientStatus := 404, clientBody := none, attempts := [],
          selectionCalls := 0, served := none }) ∧
    (∀ (beRetries : Nat) (env : Env) (req : ClientRequest),
      appDispatch beRetries env "HEAD" "/" req = handleRequest beRetries env req) ∧
    (∀ (beRetries : Nat) (env : Env) (req : ClientRequest),
      appDispatch beRetries env "OPTIONS" "/" req =
        { clientStatus := 200, clientBody := some "GET,HEAD", attempts := [],
          selectionCalls := 0, served := none }) := by
  refine ⟨fun beRetries env method path req h => ?_,
    fun beRetries env req => ?_, fun beRetries env req => ?_⟩
  · have h1 : ¬(path = "/" ∧ (method = "GET" ∨ method = "HEAD")) := by
      intro hx
      exact h ⟨hx.1, hx.2.elim Or.inl (fun x => Or.inr (Or.inl x))⟩
    have h2 : ¬(path = "/" ∧ method = "OPTIONS") := by
      intro hx
      exact h ⟨hx.1, Or.inr (Or.inr hx.2)⟩
    unfold appDispatch
    rw [if_neg h1, if_neg h2]
  · simp [appDispatch]
  · simp [appDispatch]

/-- Witness for C10 (amended) at concrete requests: a POST to `/` and a
GET to `/stats` fall through to the framework default, a HEAD to `/`
runs the GET handler, and an OPTIONS to `/` gets the default 200. -/
theorem app_routing_spec_witness :
    appDispatch 3 envCreated "POST" "/" reqEmpty =
      { clientStatus := 404, clientBody := none, attempts := [],
        selectionCalls := 0, served := none } ∧
    appDispatch 3 envCreated "GET" "/stats" reqEmpty =
      { clientStatus := 404, clientBody := none, attempts := [],
        selectionCalls := 0, served := none } ∧
    appDispatch 3 envCreated "HEAD" "/" reqEmpty = handleRequest 3 envCreated reqEmpty ∧
    appDispatch 3 envCreated "OPTIONS" "/" reqEmpty =
      { clientStatus := 200, clientBody := some "GET,HEAD", attempts := [],
        selectionCalls := 0, served := none } :=
  ⟨app_routing_spec.1 3 envCreated "POST" "/" reqEmpty (by simp),
   app_routing_spec.1 3 envCreated "GET" "/stats" reqEmpty (by simp),
   app_routing_spec.2.1 3 envCreated reqEmpty,
   app_routing_spec.2.2 3 envCreated reqEmpty⟩

lemma getLast?_cons_ne_nil {α : Type} (a : α) {l : List α} (h : l ≠ []) :
    (a :: l).getLast? = l.getLast? := by
  cases l with
  | nil => exact absurd rfl h
  | cons x xs => simp [List.getLast?_cons_cons]

lemma retryLoop_attempts_ne_nil (env : Env) :
    ∀ (r k sels : Nat) (b : Backend), (retryLoop env r k sels b).attempts ≠ [] := by
  intro r
  induction r with
  | zero =>
    intro k sels b
    cases henv : env.outcome k <;> simp [retryLoop, henv]
  | succ r ih =>
    intro k sels b
    cases henv : env.outcome k with
    | ok st body => simp [retryLoop, henv]
    | err code retryable =>
      by_cases hr : retryable
      · cases hsel : env.select sels with
        | error e => simp [retryLoop, henv, hr, hsel]
        | ok b2 => simp [retryLoop, henv, hr, hsel]
      · simp [retryLoop, henv, hr]

lemma retryLoop_success_or_500 (env : Env) :
    ∀ (r k sels : Nat) (b : Backend),
      ((retryLoop env r k sels b).clientStatus = 200 ∧
        ∃ a, (retryLoop env r k sels b).attempts.getLast? = some a ∧
          ∃ st body, a.result = .ok st body ∧
            (retryLoop env r k sels b).clientBody = some body ∧
            (retryLoop env r k sels b).served = some a.target) ∨
      ((retryLoop env r k sels b).clientStatus = 500 ∧
        (retryLoop env r k sels b).clientBody = none ∧
        (retryLoop env r k sels b).served = none) := by
  intro r
  induction r with
  | zero =>
    intro k sels b
    cases henv : env.outcome k with
    | ok st body =>
      left
      refine ⟨by simp [retryLoop, henv], mkAttempt b (.ok st body) false, ?_, st, body,
        rfl, by simp [retryLoop, henv], by simp [retryLoop, henv, mkAttempt]⟩
      simp [retryLoop, henv]
    | err code retryable => right; simp [retryLoop, henv]
  | succ r ih =>
    intro k sels b
    cases henv : env.outcome k with
    | ok st body =>
      left
      refine ⟨by simp [retryLoop, henv], mkAttempt b (.ok st body) false, ?_, st, body,
        rfl, by simp [retryLoop, henv], by simp [retryLoop, henv, mkAttempt]⟩
      simp [retryLoop, henv]
    | err code retryable =>
      by_cases hr : retryable
      · cases hsel : env.select sels with
        | error e => right; simp [retryLoop, henv, hr, hsel]
        | ok b2 =>
          have hne := retryLoop_attempts_ne_nil env r (k + 1) (sels + 1) b2
          have hlast : (retryLoop env (r + 1) k sels b).attempts.getLast? =
              (retryLoop env r (k + 1) (sels + 1) b2).attempts.getLast? := by
            simp only [retryLoop, henv, hr, if_true, hsel]
            exact getLast?_cons_ne_nil _ hne
          have hfields :
              (retryLoop env (r + 1) k sels b).clientStatus =
                (retryLoop env r (k + 1) (sels + 1) b2).clientStatus ∧
              (retryLoop env (r + 1) k sels b).clientBody =
                (retryLoop env r (k + 1) (sels + 1) b2).clientBody ∧
              (retryLoop env (r + 1) k sels b).served =
                (retryLoop env r (k + 1) (sels + 1) b2).served := by
            refine ⟨?_, ?_, ?_⟩ <;> simp only [retryLoop, henv, hr, if_true, hsel]
          rcases ih (k + 1) (sels + 1) b2 with ⟨h200, a, ha, st, body, hres, hbody, hserved⟩ | ⟨h5, hb, hs⟩
          · left
            exact ⟨hfields.1.trans h200, a, hlast.trans ha, st, body, hres,
              hfields.2.1.trans hbody, hfields.2.2.trans hserved⟩
          · right
            exact ⟨hfields.1.trans h5, hfields.2.1.trans hb, hfields.2.2.trans hs⟩
      · right; simp [retryLoop, henv, hr]

/-- C1 (counterexample): a request whose only forward attempt resolves
with upstream status 201 is answered with status 200 — the handler runs
`res.status(200).send(response.data)`, so the upstream status code is
not copied to the client. -/
theorem upstream_status_not_copied :
    (handleRequest 3 envCreated reqEmpty).attempts =
      [mkAttempt srvA (.ok 201 "created") false] ∧
    (handleRequest 3 envCreated reqEmpty).clientStatus = 200 ∧
    (200 : Nat) ≠ 201 :=
  ⟨rfl, rfl, by decide⟩

/-- C1 (amended): when the forward ends with a successful upstream
attempt the client is answered with status 200 and the upstream
response's body unchanged (and the serving backend's counter is
incremented); in every other case — no healthy backend at entry,
retry-budget exhaustion, a non-retryable upstream error, or a selection
failure during retries — the handler synthesizes a 500 with no body of
its own. -/
theorem response_success_or_500 (beRetries : Nat) (env : Env) (req : ClientRequest) :
    ((handleRequest beRetries env req).clientStatus = 200 ∧
      ∃ a, (handleRequest beRetries env req).attempts.getLast? = some a ∧
        ∃ st body, a.result = .ok st body ∧
          (handleRequest beRetries env req).clientBody = some body ∧
          (handleRequest beRetries env req).served = some a.target) ∨
    ((handleRequest beRetries env req).clientStatus = 500 ∧
      (handleRequest beRetries env req).clientBody = none ∧
      (handleRequest beRetries env req).served = none) := by
  unfold handleRequest
  by_cases h : env.healthyAtEntry.length = 0
  · right; simp [h]
  · cases hsel : env.select 0 with
    | error e => right; simp [h, hsel]
    | ok b =>
      simp only [h, if_false, hsel]
      exact retryLoop_success_or_500 env beRetries 0 1 b

lemma retryLoop_request_of_target (env : Env) :
    ∀ (r k sels : Nat) (b : Backend),
      ∀ a ∈ (retryLoop env r k sels b).attempts, a.request = mkUpstreamRequest a.target := by
  intro r
  induction r with
  | zero =>
    intro k sels b a ha
    cases henv : env.outcome k <;>
      · simp [retryLoop, henv] at ha
        subst ha
        rfl
  | succ r ih =>
    intro k sels b a ha
    cases henv : env.outcome k with
    | ok st body =>
      simp [retryLoop, henv] at ha
      subst ha
      rfl
    | err code retryable =>
      by_cases hr : retryable
      · cases hsel : env.select sels with
        | error e =>
          simp [retryLoop, henv, hr, hsel] at ha
          subst ha
          rfl
        | ok b2 =>
          simp only [retryLoop, henv, hr, if_true, hsel, List.mem_cons] at ha
          rcases ha with ha | ha
          · subst ha; rfl
          · exact ih (k + 1) (sels + 1) b2 a ha
      · simp [retryLoop, henv, hr] at ha
        subst ha
        rfl

/-- C9 (counterexample): a client request carrying a query string, a
header and a body is forwarded as a bare GET of the backend's base URL —
the handler never reads `req`, so none of the client's query, headers or
body reach the upstream. -/
theorem forward_not_verbatim :
    (handleRequest 3 envCreated reqFull).attempts =
      [mkAttempt srvA (.ok 201 "created") false] ∧
    (mkAttempt srvA (.ok 201 "created") false).request.query = [] ∧
    (mkAttempt srvA (.ok 201 "created") false).request.headers = [] ∧
    (mkAttempt srvA (.ok 201 "created") false).request.body = none ∧
    reqFull.query ≠ [] ∧ reqFull.headers ≠ [] ∧ reqFull.body ≠ none :=
  ⟨rfl, rfl, rfl, rfl, by decide, by decide, by decide⟩

/-- C9 (amended): every upstream request the forwarder sends carries
only the selected backend's base URL — an empty query string, no
headers and no body of the client's are attached, whatever the client
sent. -/
theorem upstream_request_only_base_url (beRetries : Nat) (env : Env) (req : ClientRequest) :
    ∀ a ∈ (handleRequest beRetries env req).attempts,
      a.request = { url := a.target.url, query := [], headers := [], body := none } := by
  intro a ha
  have : a.request = mkUpstreamRequest a.target := by
    revert ha
    unfold handleRequest
    by_cases h : env.healthyAtEntry.length = 0
    · simp [h]
    · cases hsel : env.select 0 with
      | error e => simp [h, hsel]
      | ok b =>
        simp only [h, if_false, hsel]
        exact retryLoop_request_of_target env beRetries 0 1 b a
  exact this

/-- Witness for C9 (amended) at a concrete run. -/
theorem upstream_request_only_base_url_witness :
    (mkAttempt srvA (.ok 201 "created") false).request =
      { url := (mkAttempt srvA (.ok 201 "created") false).target.url,
        query := [], headers := [], body := none } :=
  upstream_request_only_base_url 3 envCreated reqFull
    (mkAttempt srvA (.ok 201 "created") false)
    (by rw [show (handleRequest 3 envCreated reqFull).attempts =
        [mkAttempt srvA (.ok 201 "created") false] from rfl]
        exact List.mem_singleton.mpr rfl)

lemma retryLoop_head_target (env : Env) :
    ∀ (r k sels : Nat) (b : Backend) (a : Attempt),
      (retryLoop env r k sels b).attempts[0]? = some a →
      a.target = b ∧ a.request.url = b.url := by
  intro r k sels b a ha
  cases r with
  | zero =>
    cases henv : env.outcome k <;>
      · simp [retryLoop, henv] at ha
        subst ha
        exact ⟨rfl, rfl⟩
  | succ r =>
    cases henv : env.outcome k with
    | ok st body =>
      simp [retryLoop, henv] at ha
      subst ha
      exact ⟨rfl, rfl⟩
    | err code retryable =>
      by_cases hr : retryable
      · cases hsel : env.select sels with
        | error e =>
          simp [retryLoop, henv, hr, hsel] at ha
          subst ha
          exact ⟨rfl, rfl⟩
        | ok b2 =>
          simp only [retryLoop, henv, hr, if_true, hsel, List.getElem?_cons_zero,
            Option.some.injEq] at ha
          subst ha
          exact ⟨rfl, rfl⟩
      · simp [retryLoop, henv, hr] at ha
        subst ha
        exact ⟨rfl, rfl⟩

lemma retryLoop_probedAfter (env : Env) :
    ∀ (r k sels : Nat) (b : Backend) (i : Nat) (a : Attempt),
      (retryLoop env r k sels b).attempts[i]? = some a →
      a.probedAfter = (decide (i < r) && isRetryableRefusal a.result) := by
  intro r
  induction r with
  | zero =>
    intro k sels b i a ha
    cases i with
    | zero =>
      cases henv : env.outcome k <;>
        · simp [retryLoop, henv] at ha
          subst ha
          simp [mkAttempt, isRetryableRefusal]
    | succ j =>
      cases henv : env.outcome k <;> simp [retryLoop, henv] at ha
  | succ r ih =>
    intro k sels b i a ha
    cases henv : env.outcome k with
    | ok st body =>
      cases i with
      | zero =>
        simp [retryLoop, henv] at ha
        subst ha
        simp [mkAttempt, isRetryableRefusal]
      | succ j => simp [retryLoop, henv] at ha
    | err code retryable =>
      by_cases hr : retryable
      · cases hsel : env.select sels with
        | error e =>
          cases i with
          | zero =>
            simp [retryLoop, henv, hr, hsel] at ha
            subst ha
            subst hr
            simp [mkAttempt, isRetryableRefusal]
          | succ j => simp [retryLoop, henv, hr, hsel] at ha
        | ok b2 =>
          rw [show (retryLoop env (r + 1) k sels b).attempts =
              mkAttempt b (.err code retryable) (decide (code = "ECONNREFUSED")) ::
                (retryLoop env r (k + 1) (sels + 1) b2).attempts by
                simp [retryLoop, henv, hr, hsel]] at ha
          cases i with
          | zero =>
            simp only [List.getElem?_cons_zero, Option.some.injEq] at ha
            subst ha
            subst hr
            simp [mkAttempt, isRetryableRefusal]
          | succ i =>
            simp only [List.getElem?_cons_succ] at ha
            have := ih (k + 1) (sels + 1) b2 i a ha
            rw [this]
            congr 1
            simp [Nat.succ_lt_succ_iff]
      · cases i with
        | zero =>
          simp [retryLoop, henv, hr] at ha
          subst ha
          simp [mkAttempt, isRetryableRefusal, hr]
        | succ j => simp [retryLoop, henv, hr] at ha

lemma retryLoop_reselect (env : Env) :
    ∀ (r k sels : Nat) (b : Backend) (i : Nat) (a : Attempt),
      (retryLoop env r k sels b).attempts[i + 1]? = some a →
      ∃ b2, env.select (sels + i) = .ok b2 ∧ a.target = b2 ∧ a.request.url = b2.url := by
  intro r
  induction r with
  | zero =>
    intro k sels b i a ha
    cases henv : env.outcome k <;> simp [retryLoop, henv] at ha
  | succ r ih =>
    intro k sels b i a ha
    cases henv : env.outcome k with
    | ok st body => simp [retryLoop, henv] at ha
    | err code retryable =>
      by_cases hr : retryable
      · cases hsel : env.select sels with
        | error e => simp [retryLoop, henv, hr, hsel] at ha
        | ok b2 =>
          rw [show (retryLoop env (r + 1) k sels b).attempts =
              mkAttempt b (.err code retryable) (decide (code = "ECONNREFUSED")) ::
                (retryLoop env r (k + 1) (sels + 1) b2).attempts by
                simp [retryLoop, henv, hr, hsel]] at ha
          simp only [List.getElem?_cons_succ] at ha
          cases i with
          | zero =>
            obtain ⟨ht, hu⟩ := retryLoop_head_target env r (k + 1) (sels + 1) b2 a ha
            exact ⟨b2, by simpa using hsel, ht, hu⟩
          | succ j =>
            obtain ⟨b3, hs, ht, hu⟩ := ih (k + 1) (sels + 1) b2 j a ha
            refine ⟨b3, ?_, ht, hu⟩
            have harith : sels + (j + 1) = sels + 1 + j := by omega
            rw [harith]
            exact hs
      · simp [retryLoop, henv, hr] at ha

/-- C5: in the per-retry callback the forwarder requests a health probe
of the current target if and only if the attempt's error is a retryable
connection refusal (`error.code === "ECONNREFUSED"`) and the retry
budget is not yet exhausted (the callback only runs before a retry);
and in all cases the next attempt's target is the backend returned by
the next selection-policy call, whose URL replaces the request's
target. -/
theorem onretry_probe_iff_refused (beRetries : Nat) (env : Env) (req : ClientRequest) :
    (∀ i a, (handleRequest beRetries env req).attempts[i]? = some a →
        a.probedAfter = (decide (i < beRetries) && isRetryableRefusal a.result)) ∧
    (∀ i a, (handleRequest beRetries env req).attempts[i + 1]? = some a →
        ∃ b2, env.select (i + 1) = .ok b2 ∧ a.target = b2 ∧ a.request.url = b2.url) := by
  unfold handleRequest
  by_cases h : env.healthyAtEntry.length = 0
  · simp [h]
  · cases hsel : env.select 0 with
    | error e => simp [h, hsel]
    | ok b =>
      simp only [h, if_false, hsel]
      refine ⟨fun i a ha => retryLoop_probedAfter env beRetries 0 1 b i a ha,
        fun i a ha => ?_⟩
      obtain ⟨b2, hs, ht, hu⟩ := retryLoop_reselect env beRetries 0 1 b i a ha
      rw [Nat.add_comm 1 i] at hs
      exact ⟨b2, hs, ht, hu⟩

/-- Witness for C5 at a concrete run: a refused first attempt is probed
and the retry targets the backend the second selection call returned. -/
theorem onretry_probe_iff_refused_witness :
    ((mkAttempt srvA (.err "ECONNREFUSED" true) true).probedAfter =
      (decide ((0 : Nat) < 1) &&
        isRetryableRefusal (mkAttempt srvA (.err "ECONNREFUSED" true) true).result)) ∧
    (∃ b2, envRefusedThenOk.select 1 = .ok b2 ∧
      (mkAttempt srvB (.ok 200 "hello") false).target = b2 ∧
      (mkAttempt srvB (.ok 200 "hello") false).request.url = b2.url) :=
  ⟨(onretry_probe_iff_refused 1 envRefusedThenOk reqEmpty).1 0
      (mkAttempt srvA (.err "ECONNREFUSED" true) true) rfl,
   (onretry_probe_iff_refused 1 envRefusedThenOk reqEmpty).2 0
      (mkAttempt srvB (.ok 200 "hello") false) rfl⟩

lemma range_add_mod_perm (c0 n : Nat) (h0 : n ≠ 0) :
    ((List.range n).map (fun j => (c0 + j) % n)).Perm (List.range n) := by
  have hnd : ((List.range n).map (fun j => (c0 + j) % n)).Nodup := by
    refine List.Nodup.map_on ?_ (List.nodup_range n)
    intro x hx y hy hxy
    rw [List.mem_range] at hx hy
    have hmod : x % n = y % n := Nat.ModEq.add_left_cancel' c0 hxy
    rwa [Nat.mod_eq_of_lt hx, Nat.mod_eq_of_lt hy] at hmod
  have hsub : ((List.range n).map (fun j => (c0 + j) % n)) ⊆ List.range n := by
    intro x hx
    rw [List.mem_map] at hx
    obtain ⟨j, _hj, rfl⟩ := hx
    exact List.mem_range.mpr (Nat.mod_lt _ (Nat.pos_of_ne_zero h0))
  exact (List.subperm_of_subset hnd hsub).perm_of_length_le (by simp)

lemma map_getD_range (H : List Backend) :
    (List.range H.length).map (fun i => H.getD i default) = H := by
  apply List.ext_getElem
  · simp
  · intro i h1 h2
    simp only [List.getElem_map, List.getElem_range]
    exact List.getD_eq_getElem H default h2

lemma rrTrace_closed (H : List Backend) (hne : H ≠ []) :
    ∀ (m : Nat) (c : Int), -1 ≤ c →
      rrTrace { healthyServers := H, curBEServerIdx := c } m =
        (List.range m).map (fun j =>
          (H.getD (((c + 1).toNat + j) % H.length) default,
           ((((c + 1).toNat + j) % H.length : Nat) : Int))) := by
  intro m
  induction m with
  | zero => intro c hc; simp [rrTrace]
  | succ m ih =>
    intro c hc
    have hidx : (c + 1) % (H.length : Int) = (((c + 1).toNat % H.length : Nat) : Int) := by
      rw [Int.ofNat_emod]
      congr 1
      omega
    have hstep := rr_nextServer_eq { healthyServers := H, curBEServerIdx := c } hne hc
    have htail := ih (((c + 1).toNat % H.length : Nat) : Int) (by omega)
    have hunfold : rrTrace { healthyServers := H, curBEServerIdx := c } (m + 1) =
        (H.getD ((c + 1) % (H.length : Int)).toNat default, (c + 1) % (H.length : Int)) ::
          rrTrace { healthyServers := H, curBEServerIdx := (c + 1) % (H.length : Int) } m := by
      simp only [rrTrace, hstep]
    rw [hunfold, hidx]
    rw [show ((((c + 1).toNat % H.length : Nat) : Int)).toNat = (c + 1).toNat % H.length from
      Int.toNat_ofNat _]
    rw [htail, List.range_succ_eq_map, List.map_cons, List.map_map]
    refine congrArg₂ List.cons ?_ ?_
    · simp
    · refine List.map_congr_left ?_
      intro j _hj
      simp only [Function.comp_apply, Nat.succ_eq_add_one]
      rw [show ((((c + 1).toNat % H.length : Nat) : Int) + 1).toNat =
        (c + 1).toNat % H.length + 1 from by omega]
      rw [show ((c + 1).toNat % H.length + 1 + j) % H.length =
          ((c + 1).toNat + (j + 1)) % H.length from by
        rw [Nat.add_assoc, Nat.mod_add_mod]
        congr 1
        omega]

/-- C6: under a stable healthy set of size `n` with distinct backends,
every window of `n` consecutive round-robin `nextServer` results — the
trace of `n` calls starting from any reachable state (cursor ≥ −1; the
policy itself never mutates the healthy list) — contains each backend
of the healthy set exactly once. -/
theorem rr_window_each_backend_once (s : RRState) (n : Nat)
    (hn : s.healthyServers.length = n) (h0 : n ≠ 0)
    (hc : -1 ≤ s.curBEServerIdx) (hnd : s.healthyServers.Nodup)
    (b : Backend) (hb : b ∈ s.healthyServers) :
    ((rrTrace s n).map Prod.fst).count b = 1 := by
  obtain ⟨H, c⟩ := s
  simp only at hn hc hnd hb ⊢
  have hne : H ≠ [] := by
    intro h
    subst h
    simp at hn
    exact h0 hn.symm
  subst hn
  rw [rrTrace_closed H hne H.length c hc, List.map_map]
  have hcomp : (Prod.fst ∘ fun j =>
      (H.getD (((c + 1).toNat + j) % H.length) default,
       ((((c + 1).toNat + j) % H.length : Nat) : Int))) =
      (fun i => H.getD i default) ∘ (fun j => ((c + 1).toNat + j) % H.length) := rfl
  rw [hcomp, ← List.map_map]
  have hperm := (range_add_mod_perm (c + 1).toNat H.length
    (fun h => hne (List.length_eq_zero.mp h))).map (fun i => H.getD i default)
  rw [hperm.count_eq, map_getD_range H]
  exact List.count_eq_one_of_mem hnd hb

/-- Witness for C6: three healthy backends, window started mid-rotation
(cursor 1); the middle backend appears exactly once in the window. -/
theorem rr_window_each_backend_once_witness :
    ((rrTrace { healthyServers := [srvA, srvB, srvC], curBEServerIdx := 1 } 3).map
      Prod.fst).count srvB = 1 :=
  rr_window_each_backend_once
    { healthyServers := [srvA, srvB, srvC], curBEServerIdx := 1 } 3 rfl
    (by decide) (by decide) (by decide) srvB (by decide)
